import Mathlib

/-!
Shallow embedding of `src/stream_processing.py` (Wikimedia EventStreams
consumer).  The whole program is the single function `run_stream`; its
in-memory data (the `metrics` dict, the per-title `recent_edits` deques,
the flush timer) is embedded as the structure `StreamState`, and the body
of the `for raw_line in r.iter_lines(...)` loop as the pure function
`processLine`.  The outer `while True / try / except` loop is embedded as
`loopIter`, one outer iteration per call.

Modelling conventions:
* epoch timestamps and `time.time()` readings are integers (`Int`);
  the Python code itself coerces the fallback timestamp with `int(...)`;
* `metrics[title]["last_edit_utc"]` stores
  `datetime.fromtimestamp(ts).isoformat()`, an injective image of the
  epoch second `ts`; we store `ts` itself;
* the two `time.time()` calls inside one loop iteration (timestamp
  fallback at line 171 and flush check at line 195) are modelled as a
  single instant `now` passed to `processLine`;
* `json.loads` is external; it is an abstract parameter
  `parse : String → Option RawEvent`, with `none` standing for
  `json.JSONDecodeError`;
* Python set iteration order over `TRACKED_TITLES` is unspecified; we fix
  the source-literal order for the flush loop `for t in TRACKED_TITLES`.
-/

namespace StreamProcessing

def TRACKED_TITLES : List String :=
  ["United States", "Donald Trump", "Elon Musk", "YouTube", "Wikipedia"]

/-- `ALERT_WINDOW_SECONDS = 60 * 30` (30 minutes). -/
def ALERT_WINDOW_SECONDS : Int := 60 * 30

/-- `ALERT_COUNT = 5`. -/
def ALERT_COUNT : Nat := 5

/-- `FLUSH_EVERY_SECONDS = 20`. -/
def FLUSH_EVERY_SECONDS : Int := 20

/-- One entry of the `metrics` dict (lines 117-125). -/
structure EntityMetrics where
  total_edits : Nat
  last_edit_utc : Option Int
  last_user : Option String
  last_comment : Option String
deriving Repr, DecidableEq

/-- Initial per-title metrics: `{"total_edits": 0, ...: None}`. -/
def initMetrics : EntityMetrics := ⟨0, none, none, none⟩

/-- A decoded JSON event: the fields `run_stream` reads via `event.get`,
each `Option` because `dict.get` returns `None` when absent. -/
structure RawEvent where
  title : Option String
  user : Option String
  comment : Option String
  timestamp : Option Int
deriving Repr, DecidableEq

/-- `s.startswith(p)` over the underlying character lists (second
argument is the candidate leading text). -/
def charsStartWith : List Char → List Char → Bool
  | _, [] => true
  | [], _ :: _ => false
  | a :: as, b :: bs => a == b && charsStartWith as bs

def pyStartsWith (s p : String) : Bool := charsStartWith s.data p.data

/-- `s[n:]` on the character list. -/
def pyDrop (s : String) (n : Nat) : String := ⟨s.data.drop n⟩

/-- `str.take` over characters (`s[:n]`), used for the 200-character
comment cap on persistence. -/
def pyTake (s : String) (n : Nat) : String := ⟨s.data.take n⟩

/-- The ASCII whitespace class stripped by Python's `str.strip()`. -/
def isSpaceChar (c : Char) : Bool :=
  c == ' ' || c == '\t' || c == '\n' || c == '\r' || c == '\x0b' || c == '\x0c'

/-- Python `s.strip()`: drop whitespace from both ends. -/
def pyStrip (s : String) : String :=
  ⟨((s.data.dropWhile isSpaceChar).reverse.dropWhile isSpaceChar).reverse⟩

/-- The eviction loop (lines 183-184):
`while dq and dq[0] < cutoff: dq.popleft()`. -/
def evict (cutoff : Int) : List Int → List Int
  | [] => []
  | x :: xs => if x < cutoff then evict cutoff xs else x :: xs

/-- One alert-window update for one title (lines 181-192): append the
timestamp, evict with `cutoff = ts - ALERT_WINDOW_SECONDS`, and if the
retained length reaches `ALERT_COUNT`, fire (returning the pre-clear
length) and clear.  Returns `(fired, window_size_reported, new_window)`. -/
def record (dq : List Int) (ts : Int) : Bool × Nat × List Int :=
  let dq1 := evict (ts - ALERT_WINDOW_SECONDS) (dq ++ [ts])
  if dq1.length ≥ ALERT_COUNT then (true, dq1.length, [])
  else (false, dq1.length, dq1)

/-- The window left behind by one `record` call. -/
def stepW (dq : List Int) (ts : Int) : List Int := (record dq ts).2.2

/-- The window of one title after a whole sequence of recorded
timestamps, starting from the empty deque. -/
def runWindow (l : List Int) : List Int := l.foldl stepW []

/-- One `record` call threading both the window and the list of fired
alerts' reported counts. -/
def stepWL (acc : List Int × List Nat) (ts : Int) : List Int × List Nat :=
  let r := record acc.1 ts
  (r.2.2, if r.1 then acc.2 ++ [r.2.1] else acc.2)

/-- Like `runWindow` but also collects every fired alert's reported
count, in firing order. -/
def runWindowLog (l : List Int) : List Int × List Nat :=
  l.foldl stepWL ([], [])

/-- One line of `alerts.log`: either a real alert (line 188, carrying the
title and the pre-clear window length) or an informational reconnect
notice (line 204). -/
inductive AlertEntry
  | alert (title : String) (count : Nat)
  | info (msg : String)
deriving Repr, DecidableEq

/-- One row appended to `metrics.csv` (lines 82-94); the comment is
truncated to 200 characters on persistence only. -/
structure MetricsRow where
  rowTime : Int
  title : String
  total_edits : Nat
  last_edit_utc : Option Int
  last_user : Option String
  last_comment : Option String
deriving Repr, DecidableEq

def mkRow (now : Int) (t : String) (m : EntityMetrics) : MetricsRow :=
  ⟨now, t, m.total_edits, m.last_edit_utc, m.last_user,
    m.last_comment.map (fun s => pyTake s 200)⟩

/-- The mutable state of `run_stream`: the `metrics` dict, the
`recent_edits` defaultdict, the three output files (alert log, CSV rows,
snapshot document) and the `last_flush` timer. -/
structure StreamState where
  metrics : String → EntityMetrics
  recent : String → List Int
  alertLog : List AlertEntry
  rows : List MetricsRow
  snapshot : String → EntityMetrics
  last_flush : Int

/-- Pointwise update of a string-keyed map (dict assignment). -/
def updateMap {α : Type} (f : String → α) (k : String) (v : α) : String → α :=
  fun x => if x = k then v else f x

/-- State at entry to the `while True` loop (lines 117-132): all-zero
metrics, empty deques, empty files except the forced initial snapshot,
`last_flush = time.time()` = `t0`. -/
def initState (t0 : Int) : StreamState :=
  { metrics := fun _ => initMetrics
    recent := fun _ => []
    alertLog := []
    rows := []
    snapshot := fun _ => initMetrics
    last_flush := t0 }

/-- The metrics update (lines 174-177): increment `total_edits`, then
overwrite the three `last_*` fields. -/
def update (m : EntityMetrics) (user comment : Option String) (ts : Int) :
    EntityMetrics :=
  { total_edits := m.total_edits + 1
    last_edit_utc := some ts
    last_user := user
    last_comment := comment }

/-- The periodic flush (lines 195-200): if at least `FLUSH_EVERY_SECONDS`
elapsed since `last_flush`, append one CSV row per tracked title,
overwrite the snapshot with the current metrics, and reset the timer. -/
def flushStep (now : Int) (st : StreamState) : StreamState :=
  if now - st.last_flush ≥ FLUSH_EVERY_SECONDS then
    { st with
      rows := st.rows ++ TRACKED_TITLES.map (fun t => mkRow now t (st.metrics t))
      snapshot := st.metrics
      last_flush := now }
  else st

/-- Lines 163-200: the handling of one successfully parsed event.
Untracked (or absent) titles are filtered with no effect; a tracked title
updates metrics, records into the alert window (appending an alert-log
line when it fires, with the pre-clear length, before the clear), and
then reaches the flush check. -/
def handleEvent (now : Int) (st : StreamState) (ev : RawEvent) : StreamState :=
  match ev.title with
  | none => st
  | some title =>
    if title ∈ TRACKED_TITLES then
      let ts := ev.timestamp.getD now
      let m := update (st.metrics title) ev.user ev.comment ts
      let r := record (st.recent title) ts
      let st1 : StreamState :=
        { st with
          metrics := updateMap st.metrics title m
          recent := updateMap st.recent title r.2.2
          alertLog :=
            if r.1 then st.alertLog ++ [AlertEntry.alert title r.2.1]
            else st.alertLog }
      flushStep now st1
    else st

/-- Lines 146-200: the body of the `for raw_line` loop for one raw line.
Empty lines, non-`data:` lines, the `[DONE]` sentinel and unparseable
payloads all `continue` with no effect (in particular they never reach
the flush check); `parse = none` models `json.JSONDecodeError`. -/
def processLine (parse : String → Option RawEvent) (now : Int)
    (st : StreamState) (raw : String) : StreamState :=
  if raw = "" then st
  else if pyStartsWith raw "data:" then
    let data_str := pyStrip (pyDrop raw 5)
    if data_str = "[DONE]" then st
    else
      match parse data_str with
      | none => st
      | some ev => handleEvent now st ev
  else st

/-- A sequence of decoded events dispatched in arrival order, each paired
with the wall-clock instant of its loop iteration. -/
def runEvents (st : StreamState) (l : List (Int × RawEvent)) : StreamState :=
  l.foldl (fun s p => handleEvent p.1 s p.2) st

/-- A sequence of raw lines processed in arrival order. -/
def runLines (parse : String → Option RawEvent) (st : StreamState)
    (lines : List (Int × String)) : StreamState :=
  lines.foldl (fun s p => processLine parse p.1 s p.2) st

/-- How one streaming session (one `try` body) ends: a transport error
(`requests.RequestException` / `TimeoutError`, line 202) or a
`KeyboardInterrupt` raised inside the `try` block (line 206). -/
inductive SessionEnd
  | transportError
  | interrupted
deriving Repr, DecidableEq

/-- Outcome of one iteration of the `while True` loop: loop again, break
out cleanly (line 210), or let an exception escape `run_stream`
uncaught. -/
inductive IterResult
  | again (st : StreamState)
  | exitClean (st : StreamState)
  | exitCrash (st : StreamState)

def IterResult.state : IterResult → StreamState
  | .again st => st
  | .exitClean st => st
  | .exitCrash st => st

/-- One iteration of the outer `while True` loop (lines 140-210): the
session processes `lines`, then ends with `e`.
* `interrupted` (KeyboardInterrupt in the `try` body) is caught by the
  `except KeyboardInterrupt` clause: final `write_snapshot(metrics)`,
  then `break` — a clean exit.
* `transportError` is caught by the first `except` clause: an INFO line
  is appended to the alert log, then `time.sleep(5)`.  A
  `KeyboardInterrupt` delivered during that sleep (`stopDuringSleep`)
  is raised inside the `except` handler; per Python semantics the
  sibling `except KeyboardInterrupt` clause of the same `try` does NOT
  catch it, so it propagates out of `run_stream` with no final
  snapshot.  Otherwise the loop continues to the next connect. -/
def loopIter (parse : String → Option RawEvent) (errRepr : String)
    (st : StreamState) (lines : List (Int × String)) (e : SessionEnd)
    (stopDuringSleep : Bool) : IterResult :=
  let st1 := runLines parse st lines
  match e with
  | .interrupted => .exitClean { st1 with snapshot := st1.metrics }
  | .transportError =>
    let st2 : StreamState :=
      { st1 with
        alertLog :=
          st1.alertLog ++ [AlertEntry.info ("INFO: reconnecting after error: " ++ errRepr)] }
    if stopDuringSleep then .exitCrash st2 else .again st2

/-! ### Helper lemmas -/

theorem evict_nil (c : Int) : evict c [] = [] := rfl

theorem evict_cons (c x : Int) (xs : List Int) :
    evict c (x :: xs) = if x < c then evict c xs else x :: xs := rfl

/-- The evicted part is an all-below-cutoff leading segment. -/
theorem evict_dropped_lt (c : Int) (l : List Int) :
    ∃ p, l = p ++ evict c l ∧ ∀ x ∈ p, x < c := by
  induction l with
  | nil => exact ⟨[], rfl, by simp⟩
  | cons x xs ih =>
    rw [evict_cons]
    by_cases hx : x < c
    · obtain ⟨p, hp, hlt⟩ := ih
      refine ⟨x :: p, ?_, ?_⟩
      · rw [if_pos hx]; simpa using hp
      · intro y hy
        rcases List.mem_cons.mp hy with h | h
        · exact h ▸ hx
        · exact hlt y h
    · exact ⟨[], by rw [if_neg hx]; simp, by simp⟩

/-- Eviction stops exactly at the first retained element: the front of
the result is not below the cutoff. -/
theorem evict_head_not_lt (c : Int) (l : List Int) (x : Int) (rest : List Int)
    (h : evict c l = x :: rest) : ¬ x < c := by
  induction l with
  | nil => simp [evict_nil] at h
  | cons y ys ih =>
    rw [evict_cons] at h
    by_cases hy : y < c
    · rw [if_pos hy] at h; exact ih h
    · rw [if_neg hy] at h
      cases h
      exact hy

theorem evict_of_forall_not_lt (c : Int) (l : List Int)
    (h : ∀ x ∈ l, ¬ x < c) : evict c l = l := by
  induction l with
  | nil => rfl
  | cons x xs _ =>
    rw [evict_cons, if_neg (h x (List.mem_cons_self x xs))]

theorem evict_length_le (c : Int) (l : List Int) :
    (evict c l).length ≤ l.length := by
  induction l with
  | nil => simp [evict_nil]
  | cons x xs ih =>
    rw [evict_cons]
    by_cases hx : x < c
    · rw [if_pos hx]; exact Nat.le_succ_of_le ih
    · rw [if_neg hx]

theorem mem_of_mem_evict (c : Int) (l : List Int) (x : Int)
    (h : x ∈ evict c l) : x ∈ l := by
  obtain ⟨p, hp, _⟩ := evict_dropped_lt c l
  rw [hp]
  exact List.mem_append_right p h

/-- On a sorted list, everything eviction retains is at or above the
cutoff. -/
theorem evict_sorted_ge (c : Int) (l : List Int)
    (hs : List.Pairwise (· ≤ ·) l) : ∀ x ∈ evict c l, c ≤ x := by
  induction l with
  | nil => simp [evict_nil]
  | cons y ys ih =>
    rw [evict_cons]
    rcases List.pairwise_cons.mp hs with ⟨hy, hys⟩
    by_cases h : y < c
    · rw [if_pos h]; exact ih hys
    · rw [if_neg h]
      intro x hx
      rcases List.mem_cons.mp hx with hxy | hxys
      · omega
      · have := hy x hxys
        omega

theorem evict_pairwise (c : Int) (l : List Int)
    (hs : List.Pairwise (· ≤ ·) l) :
    List.Pairwise (· ≤ ·) (evict c l) := by
  obtain ⟨p, hp, _⟩ := evict_dropped_lt c l
  rw [hp] at hs
  exact (List.pairwise_append.mp hs).2.1

theorem record_fire (dq : List Int) (ts : Int)
    (h : (evict (ts - ALERT_WINDOW_SECONDS) (dq ++ [ts])).length ≥ ALERT_COUNT) :
    record dq ts =
      (true, (evict (ts - ALERT_WINDOW_SECONDS) (dq ++ [ts])).length, []) := by
  simp only [record]
  rw [if_pos h]

theorem record_no_fire (dq : List Int) (ts : Int)
    (h : ¬ (evict (ts - ALERT_WINDOW_SECONDS) (dq ++ [ts])).length ≥ ALERT_COUNT) :
    record dq ts =
      (false, (evict (ts - ALERT_WINDOW_SECONDS) (dq ++ [ts])).length,
        evict (ts - ALERT_WINDOW_SECONDS) (dq ++ [ts])) := by
  simp only [record]
  rw [if_neg h]

theorem record_empty (ts : Int) : record [] ts = (false, 1, [ts]) := by
  have he : evict (ts - ALERT_WINDOW_SECONDS) ([] ++ [ts]) = [ts] := by
    rw [List.nil_append, evict_cons, evict_nil,
      if_neg (show ¬ ts < ts - ALERT_WINDOW_SECONDS by
        simp only [ALERT_WINDOW_SECONDS]; omega)]
  rw [record_no_fire [] ts (by rw [he]; simp [ALERT_COUNT]), he]
  rfl

theorem stepW_of_no_fire (dq : List Int) (ts : Int)
    (h : ¬ (evict (ts - ALERT_WINDOW_SECONDS) (dq ++ [ts])).length ≥ ALERT_COUNT) :
    stepW dq ts = evict (ts - ALERT_WINDOW_SECONDS) (dq ++ [ts]) := by
  simp only [stepW, record_no_fire dq ts h]

/-- When nothing is below the cutoff and the threshold is not reached,
one `record` call just appends. -/
theorem stepW_small (dq : List Int) (ts : Int)
    (h1 : ∀ x ∈ dq ++ [ts], ¬ x < ts - ALERT_WINDOW_SECONDS)
    (h2 : dq.length + 1 < ALERT_COUNT) :
    stepW dq ts = dq ++ [ts] := by
  have he : evict (ts - ALERT_WINDOW_SECONDS) (dq ++ [ts]) = dq ++ [ts] :=
    evict_of_forall_not_lt _ _ h1
  rw [stepW_of_no_fire dq ts (by rw [he]; simp; omega), he]

theorem stepW_empty (ts : Int) : stepW [] ts = [ts] := by
  simp only [stepW, record_empty]

theorem updateMap_same {α : Type} (f : String → α) (k : String) (v : α) :
    updateMap f k v k = v := by simp [updateMap]

theorem updateMap_other {α : Type} (f : String → α) (k x : String) (v : α)
    (h : x ≠ k) : updateMap f k v x = f x := by simp [updateMap, h]

theorem flushStep_metrics (now : Int) (st : StreamState) :
    (flushStep now st).metrics = st.metrics := by
  unfold flushStep; split <;> rfl

theorem flushStep_recent (now : Int) (st : StreamState) :
    (flushStep now st).recent = st.recent := by
  unfold flushStep; split <;> rfl

/-- Effect of one tracked event on that title's metrics entry. -/
theorem handleEvent_metrics_tracked (now : Int) (st : StreamState)
    (ev : RawEvent) (T : String) (ht : ev.title = some T)
    (htr : T ∈ TRACKED_TITLES) :
    (handleEvent now st ev).metrics T =
      update (st.metrics T) ev.user ev.comment (ev.timestamp.getD now) := by
  unfold handleEvent
  rw [ht]
  simp only [if_pos htr, flushStep_metrics, updateMap_same]

/-- An event not titled `T` (untitled, other title, or untracked) leaves
`T`'s metrics entry untouched. -/
theorem handleEvent_metrics_other (now : Int) (st : StreamState)
    (ev : RawEvent) (T : String) (h : ev.title ≠ some T) :
    (handleEvent now st ev).metrics T = st.metrics T := by
  unfold handleEvent
  cases hev : ev.title with
  | none => rfl
  | some u =>
    have hu : T ≠ u := by
      intro e
      exact h (by rw [hev, e])
    by_cases htr : u ∈ TRACKED_TITLES
    · simp only [if_pos htr, flushStep_metrics, updateMap_other _ _ _ _ hu]
    · simp only [if_neg htr]

theorem runEvents_nil (st : StreamState) : runEvents st [] = st := rfl

theorem runEvents_cons (st : StreamState) (p : Int × RawEvent)
    (l : List (Int × RawEvent)) :
    runEvents st (p :: l) = runEvents (handleEvent p.1 st p.2) l := rfl

theorem runEvents_append (st : StreamState) (l1 l2 : List (Int × RawEvent)) :
    runEvents st (l1 ++ l2) = runEvents (runEvents st l1) l2 :=
  List.foldl_append _ _ l1 l2

theorem runEvents_total (T : String) (htr : T ∈ TRACKED_TITLES) :
    ∀ (l : List (Int × RawEvent)) (st : StreamState),
      (∀ p ∈ l, (p.2).title = some T) →
      ((runEvents st l).metrics T).total_edits =
        (st.metrics T).total_edits + l.length := by
  intro l
  induction l with
  | nil => intro st _; simp [runEvents_nil]
  | cons p l ih =>
    intro st hall
    rw [runEvents_cons,
      ih _ (fun q hq => hall q (List.mem_cons_of_mem _ hq)),
      handleEvent_metrics_tracked _ _ _ _ (hall p (List.mem_cons_self _ _)) htr]
    simp only [update, List.length_cons]
    omega

/-! ### Claims -/

/-- C1: every dispatched tracked event increments that entity's
`total_edits` by exactly 1 and nothing else modifies it, so a sequence of
`N` decoded events whose title is the tracked entity leaves
`total_edits = N` from the initial state. -/
theorem C1_total_edits_counts_tracked_events :
    (∀ (t0 : Int) (T : String) (l : List (Int × RawEvent)),
        T ∈ TRACKED_TITLES → (∀ p ∈ l, (p.2).title = some T) →
        ((runEvents (initState t0) l).metrics T).total_edits = l.length)
    ∧ (∀ (now : Int) (st : StreamState) (ev : RawEvent) (T : String),
        ev.title = some T → T ∈ TRACKED_TITLES →
        ((handleEvent now st ev).metrics T).total_edits =
          (st.metrics T).total_edits + 1)
    ∧ (∀ (now : Int) (st : StreamState) (ev : RawEvent) (T : String),
        ev.title ≠ some T →
        ((handleEvent now st ev).metrics T).total_edits =
          (st.metrics T).total_edits) := by
  refine ⟨?_, ?_, ?_⟩
  · intro t0 T l htr hall
    rw [runEvents_total T htr l _ hall]
    simp [initState, initMetrics]
  · intro now st ev T ht htr
    rw [handleEvent_metrics_tracked now st ev T ht htr]
    rfl
  · intro now st ev T h
    rw [handleEvent_metrics_other now st ev T h]

theorem C1_total_edits_counts_tracked_events_witness :
    ((runEvents (initState 0)
        [(0, ⟨some "Wikipedia", some "u", some "c", some 5⟩),
         (1, ⟨some "Wikipedia", none, none, none⟩)]).metrics
        "Wikipedia").total_edits = 2 :=
  C1_total_edits_counts_tracked_events.1 0 "Wikipedia" _ (by decide) (by decide)

/-- C2: a `record` call whose post-append, post-evict count reaches
`ALERT_COUNT` fires with the pre-clear count and clears the window, so
the immediately following call sees a window of size 1 and does not
fire; in particular timestamps `t, t+1, t+2, t+3, t+4` make the 5th call
fire and a 6th call at `t+5` not fire. -/
theorem C2_alert_fires_and_resets :
    (∀ (dq : List Int) (ts : Int),
        (evict (ts - ALERT_WINDOW_SECONDS) (dq ++ [ts])).length ≥ ALERT_COUNT →
        record dq ts =
          (true, (evict (ts - ALERT_WINDOW_SECONDS) (dq ++ [ts])).length, []))
    ∧ (∀ ts : Int, record [] ts = (false, 1, [ts]))
    ∧ (∀ t : Int,
        (record (stepW (stepW (stepW (stepW [] t) (t + 1)) (t + 2)) (t + 3))
            (t + 4)).1 = true
        ∧ (record [] (t + 5)).1 = false) := by
  refine ⟨record_fire, record_empty, ?_⟩
  intro t
  have hgrow : ∀ (dq : List Int) (ts : Int),
      (∀ x ∈ dq, ts - ALERT_WINDOW_SECONDS ≤ x) → dq.length + 1 < ALERT_COUNT →
      stepW dq ts = dq ++ [ts] := by
    intro dq ts hge hlen
    apply stepW_small _ _ _ hlen
    intro x hx
    rcases List.mem_append.mp hx with h | h
    · have := hge x h; omega
    · simp only [List.mem_singleton] at h
      simp only [ALERT_WINDOW_SECONDS]
      omega
  have h0 : stepW [] t = [t] := stepW_empty t
  have h1 : stepW [t] (t + 1) = [t, t + 1] := by
    have h := hgrow [t] (t + 1)
      (by
        intro x hx
        simp only [List.mem_singleton] at hx
        simp only [ALERT_WINDOW_SECONDS]
        omega)
      (by simp [ALERT_COUNT])
    simpa using h
  have h2 : stepW [t, t + 1] (t + 2) = [t, t + 1, t + 2] := by
    have h := hgrow [t, t + 1] (t + 2)
      (by
        intro x hx
        simp only [List.mem_cons, List.mem_singleton, List.not_mem_nil,
          or_false] at hx
        simp only [ALERT_WINDOW_SECONDS]
        rcases hx with rfl | rfl <;> omega)
      (by simp [ALERT_COUNT])
    simpa using h
  have h3 : stepW [t, t + 1, t + 2] (t + 3) = [t, t + 1, t + 2, t + 3] := by
    have h := hgrow [t, t + 1, t + 2] (t + 3)
      (by
        intro x hx
        simp only [List.mem_cons, List.mem_singleton, List.not_mem_nil,
          or_false] at hx
        simp only [ALERT_WINDOW_SECONDS]
        rcases hx with rfl | rfl | rfl <;> omega)
      (by simp [ALERT_COUNT])
    simpa using h
  rw [h0, h1, h2, h3]
  have hall : ∀ x ∈ [t, t + 1, t + 2, t + 3] ++ [t + 4],
      ¬ x < (t + 4) - ALERT_WINDOW_SECONDS := by
    intro x hx
    simp only [List.mem_append, List.mem_cons, List.mem_singleton,
      List.not_mem_nil, or_false] at hx
    simp only [ALERT_WINDOW_SECONDS]
    rcases hx with (rfl | rfl | rfl | rfl) | rfl <;> omega
  have hev : evict ((t + 4) - ALERT_WINDOW_SECONDS)
      ([t, t + 1, t + 2, t + 3] ++ [t + 4]) = [t, t + 1, t + 2, t + 3, t + 4] := by
    rw [evict_of_forall_not_lt _ _ hall]
    simp
  constructor
  · rw [record_fire _ _ (by rw [hev]; simp [ALERT_COUNT])]
  · rw [record_empty]

theorem C2_alert_fires_and_resets_witness :
    record [0, 1, 2, 3] 4 =
      (true, (evict (4 - ALERT_WINDOW_SECONDS) ([0, 1, 2, 3] ++ [4])).length, [])
    ∧ record [] 7 = (false, 1, [7])
    ∧ (record (stepW (stepW (stepW (stepW [] 0) (0 + 1)) (0 + 2)) (0 + 3))
        (0 + 4)).1 = true :=
  ⟨C2_alert_fires_and_resets.1 [0, 1, 2, 3] 4 (by decide),
   C2_alert_fires_and_resets.2.1 7,
   (C2_alert_fires_and_resets.2.2 0).1⟩

/-- C3: eviction removes elements from the front exactly while the front
value is strictly below `cutoff = ts - ALERT_WINDOW_SECONDS`: the removed
leading segment is all strictly below the cutoff and the retained front
is not; with the default window of 1800 seconds, recording `t` and then
`t + 1801` leaves exactly the second timestamp. -/
theorem C3_eviction_front_while_below_cutoff :
    (∀ (c : Int) (l : List Int), ∃ p, l = p ++ evict c l ∧ ∀ x ∈ p, x < c)
    ∧ (∀ (c : Int) (l : List Int) (x : Int) (rest : List Int),
        evict c l = x :: rest → ¬ x < c)
    ∧ (∀ t : Int, stepW (stepW [] t) (t + 1801) = [t + 1801]) := by
  refine ⟨evict_dropped_lt, evict_head_not_lt, ?_⟩
  intro t
  rw [stepW_empty t]
  have he : evict ((t + 1801) - ALERT_WINDOW_SECONDS) ([t] ++ [t + 1801]) =
      [t + 1801] := by
    show evict ((t + 1801) - ALERT_WINDOW_SECONDS) (t :: [t + 1801]) = [t + 1801]
    rw [evict_cons,
      if_pos (show t < (t + 1801) - ALERT_WINDOW_SECONDS by
        simp only [ALERT_WINDOW_SECONDS]; omega),
      evict_cons,
      if_neg (show ¬ t + 1801 < (t + 1801) - ALERT_WINDOW_SECONDS by
        simp only [ALERT_WINDOW_SECONDS]; omega)]
  rw [stepW_of_no_fire _ _ (by rw [he]; simp [ALERT_COUNT]), he]

theorem C3_eviction_front_while_below_cutoff_witness :
    ¬ (7 : Int) < 5 ∧ stepW (stepW [] 0) (0 + 1801) = [0 + 1801] :=
  ⟨C3_eviction_front_while_below_cutoff.2.1 5 [1, 7, 2] 7 [2] (by decide),
   C3_eviction_front_while_below_cutoff.2.2 0⟩

/-- C5: after any sequence ending with a tracked event, that entity's
`last_user`, `last_comment` and `last_edit_time` equal the values carried
by the last event in processing order (with the decoder's wall-clock
substitution when the event lacks a timestamp), regardless of the value
order of the timestamps. -/
theorem C5_last_fields_track_last_event :
    ∀ (st : StreamState) (l : List (Int × RawEvent)) (n : Int) (ev : RawEvent)
      (T : String), ev.title = some T → T ∈ TRACKED_TITLES →
      ((runEvents st (l ++ [(n, ev)])).metrics T).last_user = ev.user
      ∧ ((runEvents st (l ++ [(n, ev)])).metrics T).last_comment = ev.comment
      ∧ ((runEvents st (l ++ [(n, ev)])).metrics T).last_edit_utc =
          some (ev.timestamp.getD n) := by
  intro st l n ev T ht htr
  rw [runEvents_append,
    show runEvents (runEvents st l) [(n, ev)] =
      handleEvent n (runEvents st l) ev from rfl,
    handleEvent_metrics_tracked n (runEvents st l) ev T ht htr]
  exact ⟨rfl, rfl, rfl⟩

theorem C5_last_fields_track_last_event_witness :
    ((runEvents (initState 0)
        ([(0, ⟨some "Wikipedia", some "alice", some "c1", some 50⟩)] ++
          [(1, ⟨some "Wikipedia", some "bob", some "c2", some 7⟩)])).metrics
        "Wikipedia").last_user = some "bob"
    ∧ ((runEvents (initState 0)
        ([(0, ⟨some "Wikipedia", some "alice", some "c1", some 50⟩)] ++
          [(1, ⟨some "Wikipedia", some "bob", some "c2", some 7⟩)])).metrics
        "Wikipedia").last_comment = some "c2"
    ∧ ((runEvents (initState 0)
        ([(0, ⟨some "Wikipedia", some "alice", some "c1", some 50⟩)] ++
          [(1, ⟨some "Wikipedia", some "bob", some "c2", some 7⟩)])).metrics
        "Wikipedia").last_edit_utc = some 7 :=
  C5_last_fields_track_last_event (initState 0)
    [(0, ⟨some "Wikipedia", some "alice", some "c1", some 50⟩)] 1
    ⟨some "Wikipedia", some "bob", some "c2", some 7⟩ "Wikipedia" rfl (by decide)

/-- C6: a `data:` line whose payload does not parse is skipped with no
effect at all: the stream state (metrics, windows, alert log, rows,
snapshot, flush timer) is returned unchanged. -/
theorem C6_malformed_payload_is_skipped :
    ∀ (parse : String → Option RawEvent) (now : Int) (st : StreamState)
      (raw : String),
      pyStartsWith raw "data:" = true →
      parse (pyStrip (pyDrop raw 5)) = none →
      processLine parse now st raw = st := by
  intro parse now st raw hdata hparse
  unfold processLine
  have hne : ¬ raw = "" := by
    intro h
    subst h
    exact absurd hdata (by decide)
  rw [if_neg hne, if_pos hdata]
  by_cases hdone : pyStrip (pyDrop raw 5) = "[DONE]"
  · rw [if_pos hdone]
  · rw [if_neg hdone, hparse]

theorem C6_malformed_payload_is_skipped_witness :
    processLine (fun _ => none) 17 (initState 3) "data: \x7bnot json" =
      initState 3 :=
  C6_malformed_payload_is_skipped (fun _ => none) 17 (initState 3)
    "data: \x7bnot json" (by decide) rfl

/-! ### Window invariant under monotone inserts (for C4) -/

/-- Invariant the window keeps as long as recorded timestamps arrive in
non-decreasing order: sorted, within the window of the newest insert,
and bounded by the newest insert. -/
def WindowInv (last : Int) (dq : List Int) : Prop :=
  List.Pairwise (· ≤ ·) dq ∧ ∀ x ∈ dq, last - ALERT_WINDOW_SECONDS ≤ x ∧ x ≤ last

theorem windowInv_nil (last : Int) : WindowInv last [] :=
  ⟨List.Pairwise.nil, by simp⟩

theorem windowInv_step (last ts : Int) (dq : List Int) (h : WindowInv last dq)
    (hle : last ≤ ts) : WindowInv ts (stepW dq ts) := by
  obtain ⟨hs, hb⟩ := h
  have hs' : List.Pairwise (· ≤ ·) (dq ++ [ts]) := by
    rw [List.pairwise_append]
    refine ⟨hs, List.pairwise_singleton _ _, ?_⟩
    intro a ha b hb'
    simp only [List.mem_singleton] at hb'
    subst hb'
    exact le_trans (hb a ha).2 hle
  by_cases hfire : (evict (ts - ALERT_WINDOW_SECONDS) (dq ++ [ts])).length ≥ ALERT_COUNT
  · have hz : stepW dq ts = [] := by
      simp only [stepW, record_fire dq ts hfire]
    rw [hz]
    exact windowInv_nil ts
  · rw [stepW_of_no_fire dq ts hfire]
    refine ⟨evict_pairwise _ _ hs', ?_⟩
    intro x hx
    refine ⟨evict_sorted_ge _ _ hs' x hx, ?_⟩
    have hmem := mem_of_mem_evict _ _ x hx
    rcases List.mem_append.mp hmem with h | h
    · exact le_trans (hb x h).2 hle
    · simp only [List.mem_singleton] at h
      omega

theorem windowInv_concat :
    ∀ (l : List Int) (dq : List Int) (last t : Int), WindowInv last dq →
      List.Pairwise (· ≤ ·) (last :: (l ++ [t])) →
      WindowInv t ((l ++ [t]).foldl stepW dq) := by
  intro l
  induction l with
  | nil =>
    intro dq last t h hp
    rcases List.pairwise_cons.mp hp with ⟨hlast, _⟩
    exact windowInv_step last t dq h (hlast t (by simp))
  | cons a l' ih =>
    intro dq last t h hp
    rcases List.pairwise_cons.mp hp with ⟨hlast, hp'⟩
    have h1 : WindowInv a (stepW dq a) :=
      windowInv_step last a dq h (hlast a (by simp))
    exact ih (stepW dq a) a t h1 hp'

/-- C4 counterexample: the feed order `10000, 100, 10000` (legal, since
the feed offers no ordering guarantee and the claim allows arbitrary
value order) retains the stale timestamp `100` even though the newest
inserted timestamp is `10000` and `100 < 10000 - ALERT_WINDOW_SECONDS`:
front-only eviction stops at the first retained front and never reaches
the stale middle entry. -/
theorem C4_counterexample_stale_entry_retained :
    runWindow [10000, 100, 10000] = [10000, 100, 10000]
    ∧ (100 : Int) ∈ runWindow [10000, 100, 10000]
    ∧ ¬ ((10000 : Int) - ALERT_WINDOW_SECONDS ≤ 100) := by decide

/-- C4 (amended): when the recorded timestamps arrive in non-decreasing
value order, then after every record call each retained timestamp `x`
satisfies `x ≥ newest_inserted - ALERT_WINDOW_SECONDS`. -/
theorem C4_window_invariant_for_monotone_feed :
    ∀ (l : List Int) (t : Int), List.Pairwise (· ≤ ·) (l ++ [t]) →
      ∀ x ∈ runWindow (l ++ [t]), t - ALERT_WINDOW_SECONDS ≤ x := by
  intro l t hp x hx
  cases l with
  | nil =>
    rw [show runWindow ([] ++ [t]) = stepW [] t from rfl, stepW_empty t] at hx
    simp only [List.mem_singleton] at hx
    subst hx
    simp only [ALERT_WINDOW_SECONDS]
    omega
  | cons a l' =>
    have h0 : WindowInv a (stepW [] a) := by
      rw [stepW_empty a]
      refine ⟨List.pairwise_singleton _ _, ?_⟩
      intro y hy
      simp only [List.mem_singleton] at hy
      simp only [ALERT_WINDOW_SECONDS]
      omega
    have hrun := windowInv_concat l' (stepW [] a) a t h0 hp
    exact (hrun.2 x hx).1

theorem C4_window_invariant_for_monotone_feed_witness :
    (30 : Int) - ALERT_WINDOW_SECONDS ≤ 30 :=
  C4_window_invariant_for_monotone_feed [10, 20] 30 (by decide) 30 (by decide)

/-! ### Window size bound and exact alert counts (for C10) -/

theorem record_count_at_threshold (dq : List Int) (ts : Int)
    (h : dq.length < ALERT_COUNT) :
    (stepW dq ts).length < ALERT_COUNT
    ∧ ((record dq ts).1 = true → (record dq ts).2.1 = ALERT_COUNT) := by
  have hlen : (evict (ts - ALERT_WINDOW_SECONDS) (dq ++ [ts])).length ≤
      dq.length + 1 := by
    have he := evict_length_le (ts - ALERT_WINDOW_SECONDS) (dq ++ [ts])
    simpa using he
  by_cases hfire :
      (evict (ts - ALERT_WINDOW_SECONDS) (dq ++ [ts])).length ≥ ALERT_COUNT
  · constructor
    · simp only [stepW, record_fire dq ts hfire]
      simp [ALERT_COUNT]
    · intro _
      rw [record_fire dq ts hfire]
      show (evict (ts - ALERT_WINDOW_SECONDS) (dq ++ [ts])).length = ALERT_COUNT
      omega
  · constructor
    · rw [stepW_of_no_fire dq ts hfire]
      omega
    · intro hf
      rw [record_no_fire dq ts hfire] at hf
      simp at hf

theorem runWindowLog_inv (l : List Int) :
    ∀ (dq : List Int) (log : List Nat), dq.length < ALERT_COUNT →
      (∀ c ∈ log, c = ALERT_COUNT) →
      (l.foldl stepWL (dq, log)).1.length < ALERT_COUNT
      ∧ ∀ c ∈ (l.foldl stepWL (dq, log)).2, c = ALERT_COUNT := by
  induction l with
  | nil =>
    intro dq log h1 h2
    exact ⟨h1, h2⟩
  | cons ts l ih =>
    intro dq log h1 h2
    have hstep := record_count_at_threshold dq ts h1
    refine ih (record dq ts).2.2 _ hstep.1 ?_
    intro c hc
    by_cases hf : (record dq ts).1 = true
    · rw [if_pos hf] at hc
      rcases List.mem_append.mp hc with h | h
      · exact h2 c h
      · simp only [List.mem_singleton] at h
        subst h
        exact hstep.2 hf
    · rw [if_neg hf] at hc
      exact h2 c hc

/-- C10: every reachable window has size strictly below `ALERT_COUNT`
after each `record` call (any state reaching the threshold is cleared in
the same call), and every fired alert reports a count of exactly
`ALERT_COUNT`. -/
theorem C10_window_bounded_and_alert_counts_exact :
    (∀ (dq : List Int) (ts : Int), dq.length < ALERT_COUNT →
        (stepW dq ts).length < ALERT_COUNT
        ∧ ((record dq ts).1 = true → (record dq ts).2.1 = ALERT_COUNT))
    ∧ ∀ l : List Int,
        (runWindowLog l).1.length < ALERT_COUNT
        ∧ ∀ c ∈ (runWindowLog l).2, c = ALERT_COUNT :=
  ⟨record_count_at_threshold,
   fun l => runWindowLog_inv l [] [] (by simp [ALERT_COUNT]) (by simp)⟩

theorem C10_window_bounded_and_alert_counts_exact_witness :
    (stepW [1, 2, 3, 4] 5).length < ALERT_COUNT
    ∧ ((record [1, 2, 3, 4] 5).1 = true →
        (record [1, 2, 3, 4] 5).2.1 = ALERT_COUNT) :=
  C10_window_bounded_and_alert_counts_exact.1 [1, 2, 3, 4] 5 (by decide)

/-! ### Flush cadence (for C7) -/

theorem flushStep_fires (now : Int) (st : StreamState)
    (h : now - st.last_flush ≥ FLUSH_EVERY_SECONDS) :
    flushStep now st =
      { st with
        rows := st.rows ++
          TRACKED_TITLES.map (fun u => mkRow now u (st.metrics u))
        snapshot := st.metrics
        last_flush := now } := by
  unfold flushStep
  rw [if_pos h]

/-- C7 counterexample: the flush check sits after the per-line `continue`
statements, so a line that is read while more than `FLUSH_EVERY_SECONDS`
has elapsed — here one that even decodes to an event, just for an
untracked title — appends no metrics rows at all, where the claim
demands one row per tracked entity (five rows). -/
theorem C7_counterexample_skipped_line_no_flush :
    (processLine
        (fun _ => some ⟨some "Some Other Page", some "u", some "c", some 50⟩)
        100 (initState 0) "data: x").rows = []
    ∧ (100 : Int) - (initState 0).last_flush ≥ FLUSH_EVERY_SECONDS
    ∧ TRACKED_TITLES ≠ [] := by decide

/-- C7 (amended): whenever a *tracked* event is fully processed at a
wall-clock instant at least `FLUSH_EVERY_SECONDS` after the last flush,
one metrics row per tracked entity is appended (reflecting the
just-updated metrics), the snapshot document is overwritten with the
current metrics, and the flush timer resets to the current instant. -/
theorem C7_flush_after_tracked_event_on_cadence :
    ∀ (now : Int) (st : StreamState) (ev : RawEvent) (T : String),
      ev.title = some T → T ∈ TRACKED_TITLES →
      now - st.last_flush ≥ FLUSH_EVERY_SECONDS →
      (handleEvent now st ev).rows =
        st.rows ++ TRACKED_TITLES.map
          (fun u => mkRow now u ((handleEvent now st ev).metrics u))
      ∧ (handleEvent now st ev).snapshot = (handleEvent now st ev).metrics
      ∧ (handleEvent now st ev).last_flush = now := by
  intro now st ev T ht htr hel
  have hfl : ∀ (M : String → EntityMetrics) (R : String → List Int)
      (L : List AlertEntry),
      flushStep now
        { metrics := M, recent := R, alertLog := L, rows := st.rows,
          snapshot := st.snapshot, last_flush := st.last_flush } =
        { metrics := M, recent := R, alertLog := L,
          rows := st.rows ++ TRACKED_TITLES.map (fun u => mkRow now u (M u)),
          snapshot := M, last_flush := now } :=
    fun M R L => flushStep_fires now _ hel
  unfold handleEvent
  rw [ht]
  simp only [if_pos htr]
  rw [hfl]
  exact ⟨rfl, rfl, rfl⟩

theorem C7_flush_after_tracked_event_on_cadence_witness :
    (handleEvent 25 (initState 0) ⟨some "Wikipedia", some "u", some "c", some 9⟩).rows =
      (initState 0).rows ++ TRACKED_TITLES.map
        (fun u => mkRow 25 u
          ((handleEvent 25 (initState 0)
            ⟨some "Wikipedia", some "u", some "c", some 9⟩).metrics u))
    ∧ (handleEvent 25 (initState 0)
        ⟨some "Wikipedia", some "u", some "c", some 9⟩).snapshot =
      (handleEvent 25 (initState 0)
        ⟨some "Wikipedia", some "u", some "c", some 9⟩).metrics
    ∧ (handleEvent 25 (initState 0)
        ⟨some "Wikipedia", some "u", some "c", some 9⟩).last_flush = 25 :=
  C7_flush_after_tracked_event_on_cadence 25 (initState 0)
    ⟨some "Wikipedia", some "u", some "c", some 9⟩ "Wikipedia" rfl (by decide)
    (by decide)

/-- C8: the stop signal is handled cleanly only at the in-`try`
suspension point.  A `KeyboardInterrupt` in the `try` body is caught and
produces a final snapshot of exactly the fully processed events plus a
clean exit; but a stop signal delivered during the 5-second backoff
sleep is raised inside the `except` handler, which the sibling
`except KeyboardInterrupt` clause does not cover, so the process crashes
out with the snapshot document left stale — concretely, after one
tracked event with no intervening flush, the crash leaves
`snapshot.total_edits = 0` while `metrics.total_edits = 1`. -/
theorem C8_stop_during_backoff_sleep_skips_final_snapshot :
    (∀ (parse : String → Option RawEvent) (errRepr : String)
        (st : StreamState) (lines : List (Int × String)) (b : Bool),
        loopIter parse errRepr st lines SessionEnd.interrupted b =
          IterResult.exitClean
            { runLines parse st lines with
              snapshot := (runLines parse st lines).metrics })
    ∧ (∀ (parse : String → Option RawEvent) (errRepr : String)
        (st : StreamState) (lines : List (Int × String)),
        loopIter parse errRepr st lines SessionEnd.transportError true =
          IterResult.exitCrash
            { runLines parse st lines with
              alertLog := (runLines parse st lines).alertLog ++
                [AlertEntry.info ("INFO: reconnecting after error: " ++ errRepr)] })
    ∧ (((loopIter (fun _ => some ⟨some "Wikipedia", some "u", some "c", some 5⟩)
          "boom" (initState 0) [(5, "data: x")] SessionEnd.transportError
          true).state.snapshot "Wikipedia").total_edits = 0
        ∧ ((loopIter (fun _ => some ⟨some "Wikipedia", some "u", some "c", some 5⟩)
          "boom" (initState 0) [(5, "data: x")] SessionEnd.transportError
          true).state.metrics "Wikipedia").total_edits = 1) :=
  ⟨fun _ _ _ _ b => by cases b <;> rfl, fun _ _ _ _ => rfl, by decide, by decide⟩

/-- C9: the transport-failure handling (log an INFO line, back off,
reconnect) changes only the alert log: the whole metrics mapping and all
alert windows survive a `RECOVERABLE_ERROR → CONNECTING` cycle
untouched, so no counter is reset across reconnects. -/
theorem C9_reconnect_preserves_all_metrics :
    ∀ (parse : String → Option RawEvent) (errRepr : String)
      (st : StreamState) (lines : List (Int × String)),
      loopIter parse errRepr st lines SessionEnd.transportError false =
        IterResult.again
          { runLines parse st lines with
            alertLog := (runLines parse st lines).alertLog ++
              [AlertEntry.info ("INFO: reconnecting after error: " ++ errRepr)] }
      ∧ (loopIter parse errRepr st lines
          SessionEnd.transportError false).state.metrics =
        (runLines parse st lines).metrics
      ∧ (loopIter parse errRepr st lines
          SessionEnd.transportError false).state.recent =
        (runLines parse st lines).recent
      ∧ (loopIter parse errRepr st lines
          SessionEnd.transportError false).state.snapshot =
        (runLines parse st lines).snapshot :=
  fun _ _ _ _ => ⟨rfl, rfl, rfl, rfl⟩

end StreamProcessing
